import Mathlib

/-!
Verification of the half-america optimization core against its
natural-language specification.

The Python sources (src/half_america/graph/{boundary,network,pipeline}.py and
src/half_america/optimization/{solver,search,sweep}.py) are shallowly embedded
below.  Python floats are modelled as exact rationals (ℚ), numpy int64 as ℤ,
numpy boolean arrays as `List Bool`, exceptions as `Except String`, and the
mutable on-disk pickle store as an explicit `String → Option` map.
-/

namespace HalfAmerica

/-- GraphAttributes (graph/boundary.py): per-node population and area, the
characteristic length scale rho, and the symmetric shared-boundary-length map
(modelled as a total lookup function, mirroring dict lookup on edge keys). -/
structure GraphAttributes where
  population : List ℤ
  area : List ℚ
  rho : ℚ
  edge_lengths : ℕ → ℕ → ℚ

/-- GraphData (graph/pipeline.py): canonical edge list plus attributes. -/
structure GraphData where
  edges : List (ℕ × ℕ)
  attributes : GraphAttributes
  num_nodes : ℕ
  num_edges : ℕ

/-- OptimizationResult (optimization/solver.py). -/
structure OptimizationResult where
  partition : List Bool
  selected_population : ℤ
  selected_area : ℚ
  total_population : ℤ
  total_area : ℚ
  population_fraction : ℚ
  satisfied_target : Bool
  lambda_param : ℚ
  mu : ℚ
  flow_value : ℚ
  deriving DecidableEq, Repr

/-- TARGET_TOLERANCE (optimization/solver.py line 27): 0.01. -/
def TARGET_TOLERANCE : ℚ := 1 / 100

/-- Sum of a weight list over the True entries of a boolean mask, mirroring
numpy fancy indexing `population[partition].sum()` (lists of equal length). -/
def maskSumZ : List ℤ → List Bool → ℤ
  | p :: ps, b :: bs => (if b then p else 0) + maskSumZ ps bs
  | _, _ => 0

/-- Sum of a rational weight list over the True entries of a boolean mask,
mirroring `area[partition].sum()`. -/
def maskSumQ : List ℚ → List Bool → ℚ
  | a :: as', b :: bs => (if b then a else 0) + maskSumQ as' bs
  | _, _ => 0

/-- The t-link capacities of build_flow_network (graph/network.py lines 40-43)
accumulated over a source-side cut: a node on the source side (True) cuts its
sink capacity `(1-λ)·a_i/ρ²`, a node on the sink side cuts its source
capacity `μ·p_i`. -/
def tlinkCut (lambda_param mu rho : ℚ) : List ℤ → List ℚ → List Bool → ℚ
  | p :: ps, a :: as', b :: bs =>
      (if b then (1 - lambda_param) * a / rho ^ 2 else mu * (p : ℚ)) +
        tlinkCut lambda_param mu rho ps as' bs
  | _, _, _ => 0

/-- The n-link capacities of build_flow_network (graph/network.py lines 45-51)
accumulated over the edges crossing the cut: `λ·l_ij/ρ` for each edge whose
endpoints lie on different sides. -/
def nlinkCut (lambda_param rho : ℚ) (edge_lengths : ℕ → ℕ → ℚ)
    (partition : List Bool) : List (ℕ × ℕ) → ℚ
  | [] => 0
  | (i, j) :: es =>
      (if partition.getD i false ≠ partition.getD j false then
        lambda_param * edge_lengths i j / rho else 0) +
        nlinkCut lambda_param rho edge_lengths partition es

/-- Total capacity of the s-t cut induced by a candidate partition of the flow
network built by build_flow_network. -/
def cutValue (attributes : GraphAttributes) (edges : List (ℕ × ℕ))
    (lambda_param mu : ℚ) (partition : List Bool) : ℚ :=
  tlinkCut lambda_param mu attributes.rho attributes.population attributes.area
      partition +
    nlinkCut lambda_param attributes.rho attributes.edge_lengths partition edges

/-- All boolean vectors of a given length, in a fixed enumeration order whose
first element is the all-False vector. -/
def allBitVecs : ℕ → List (List Bool)
  | 0 => [[]]
  | n + 1 =>
      (allBitVecs n).map (fun x => false :: x) ++
        (allBitVecs n).map (fun x => true :: x)

/-- First minimiser of `f` among the start element and the list, scanned left
to right (earlier elements win exact ties). -/
def pickMin {α : Type} (f : α → ℚ) (c : α) (l : List α) : α :=
  l.foldl (fun best x => if f x < f best then x else best) c

/-- Modelled from the spec: the external PyMaxflow solver invoked by
`g.maxflow()` / `get_partition` (solver.py lines 67-68) is not repository
code; per spec §4.4 it returns an exact minimum s-t cut of the network built
by build_flow_network, with a fixed deterministic tie-break.  Modelled as the
first global minimiser of the cut capacity in a fixed enumeration of all
partitions (ties prefer the excluded side). -/
def minCutPartition (attributes : GraphAttributes) (edges : List (ℕ × ℕ))
    (lambda_param mu : ℚ) (num_nodes : ℕ) : List Bool :=
  pickMin (cutValue attributes edges lambda_param mu)
    (List.replicate num_nodes false) (allBitVecs num_nodes)

/-- compute_energy (graph/network.py lines 70-108), boundary term: loop over
edges adding `λ·l_ij/ρ` whenever the edge crosses the partition. -/
def boundaryCost (lambda_param rho : ℚ) (edge_lengths : ℕ → ℕ → ℚ)
    (partition : List Bool) : List (ℕ × ℕ) → ℚ
  | [] => 0
  | (i, j) :: es =>
      (if partition.getD i false ≠ partition.getD j false then
        lambda_param * edge_lengths i j / rho else 0) +
        boundaryCost lambda_param rho edge_lengths partition es

/-- compute_energy (graph/network.py lines 70-108): independent recomputation
of `E(x) = λΣ(l_ij/ρ)|x_i−x_j| + (1−λ)Σ(a_i/ρ²)x_i − μΣp_i·x_i`. -/
def compute_energy (attributes : GraphAttributes) (edges : List (ℕ × ℕ))
    (partition : List Bool) (lambda_param mu : ℚ) : ℚ :=
  let boundary_cost :=
    boundaryCost lambda_param attributes.rho attributes.edge_lengths partition
      edges
  let area_cost :=
    (1 - lambda_param) * maskSumQ attributes.area partition / attributes.rho ^ 2
  let population_reward := mu * ((maskSumZ attributes.population partition : ℤ) : ℚ)
  boundary_cost + area_cost - population_reward

/-- solve_partition (optimization/solver.py lines 30-103): validate λ and μ,
build and solve the flow network, assemble the statistics record.  Python's
ZeroDivisionError when `total_population = 0` is modelled explicitly. -/
def solve_partition (graph_data : GraphData) (lambda_param mu : ℚ) :
    Except String OptimizationResult :=
  if ¬ (0 ≤ lambda_param ∧ lambda_param ≤ 1) then
    .error "ValueError: lambda_param must be in [0, 1]"
  else if mu < 0 then
    .error "ValueError: mu must be non-negative"
  else
    let attrs := graph_data.attributes
    let partition :=
      minCutPartition attrs graph_data.edges lambda_param mu graph_data.num_nodes
    let flow_value := cutValue attrs graph_data.edges lambda_param mu partition
    let selected_population := maskSumZ attrs.population partition
    let selected_area := maskSumQ attrs.area partition
    let total_population := attrs.population.sum
    let total_area := attrs.area.sum
    if total_population = 0 then
      .error "ZeroDivisionError: division by zero"
    else
      let population_fraction :=
        ((selected_population : ℤ) : ℚ) / ((total_population : ℤ) : ℚ)
      let satisfied_target :=
        decide (|population_fraction - 1/2| ≤ TARGET_TOLERANCE)
      .ok
        { partition := partition
          selected_population := selected_population
          selected_area := selected_area
          total_population := total_population
          total_area := total_area
          population_fraction := population_fraction
          satisfied_target := satisfied_target
          lambda_param := lambda_param
          mu := mu
          flow_value := flow_value }

/-- Population of the nodes on the excluded side,
`attrs.population[~partition].sum()`. -/
def unselected_population (attributes : GraphAttributes)
    (partition : List Bool) : ℤ :=
  maskSumZ attributes.population (partition.map (fun b => !b))

/-- Area of the nodes on the excluded side, `attrs.area[~partition].sum()`. -/
def unselected_area (attributes : GraphAttributes) (partition : List Bool) : ℚ :=
  maskSumQ attributes.area (partition.map (fun b => !b))

/-- SearchResult (optimization/search.py). -/
structure SearchResult where
  result : OptimizationResult
  iterations : ℕ
  mu_history : List ℚ
  converged : Bool
  deriving DecidableEq, Repr

/-- DEFAULT_MAX_ITERATIONS (optimization/search.py line 23). -/
def DEFAULT_MAX_ITERATIONS : ℕ := 50

/-- DEFAULT_MU_MIN (optimization/search.py line 24). -/
def DEFAULT_MU_MIN : ℚ := 0

/-- _estimate_mu_max (optimization/search.py lines 122-137). -/
def estimate_mu_max (graph_data : GraphData) : ℚ :=
  let attrs := graph_data.attributes
  let total_area := attrs.area.sum
  let total_pop := attrs.population.sum
  let rho_sq := attrs.rho ^ 2
  let mu_scale := (total_area / rho_sq) / ((total_pop : ℤ) : ℚ)
  mu_scale * 10

/-- The actually used upper search bound: the explicit `mu_max` argument when
given, else the auto-scaled estimate (search.py lines 60-61). -/
def resolve_mu_max (graph_data : GraphData) : Option ℚ → ℚ
  | some m => m
  | none => estimate_mu_max graph_data

/-- The `for iteration in range(max_iterations)` loop of find_optimal_mu
(search.py lines 71-119), as a fuelled recursion: `fuel` is the number of
remaining iterations and `iterDone` the number already performed (so
`iterDone + fuel = max_iterations` at every call).  Exhausting the loop with
no stored result models Python's failing `assert result is not None`. -/
def muLoop (graph_data : GraphData) (lambda_param target_pop pop_tolerance : ℚ)
    (max_iterations : ℕ) :
    ℕ → ℕ → ℚ → ℚ → List ℚ → Option OptimizationResult →
      Except String SearchResult
  | 0, _, _, _, mu_history, res =>
      match res with
      | none => .error "AssertionError: result is not None"
      | some r =>
          .ok { result := r, iterations := max_iterations,
                mu_history := mu_history, converged := false }
  | fuel + 1, iterDone, mu_min, mu_max, mu_history, _ =>
      let mu := (mu_min + mu_max) / 2
      let hist := mu_history ++ [mu]
      match solve_partition graph_data lambda_param mu with
      | .error e => .error e
      | .ok result =>
          let err := ((result.selected_population : ℤ) : ℚ) - target_pop
          if |err| ≤ pop_tolerance then
            .ok { result := result, iterations := iterDone + 1,
                  mu_history := hist, converged := true }
          else if ((result.selected_population : ℤ) : ℚ) < target_pop then
            muLoop graph_data lambda_param target_pop pop_tolerance
              max_iterations fuel (iterDone + 1) mu mu_max hist (some result)
          else
            muLoop graph_data lambda_param target_pop pop_tolerance
              max_iterations fuel (iterDone + 1) mu_min mu hist (some result)

/-- find_optimal_mu (optimization/search.py lines 27-119): binary search for μ
achieving the target population fraction. -/
def find_optimal_mu (graph_data : GraphData)
    (lambda_param target_fraction tolerance : ℚ) (max_iterations : ℕ)
    (mu_min : ℚ) (mu_max : Option ℚ) : Except String SearchResult :=
  let total_pop := graph_data.attributes.population.sum
  let target_pop := target_fraction * ((total_pop : ℤ) : ℚ)
  let pop_tolerance := tolerance * ((total_pop : ℤ) : ℚ)
  let mu_max' := resolve_mu_max graph_data mu_max
  muLoop graph_data lambda_param target_pop pop_tolerance max_iterations
    max_iterations 0 mu_min mu_max' [] none

/-- LambdaResult (optimization/sweep.py). -/
structure LambdaResult where
  lambda_param : ℚ
  search_result : SearchResult
  elapsed_seconds : ℚ
  deriving DecidableEq, Repr

/-- SweepResult (optimization/sweep.py); the `results` dict is modelled as an
association list in insertion order. -/
structure SweepResult where
  results : List (ℚ × LambdaResult)
  lambda_values : List ℚ
  total_iterations : ℕ
  total_elapsed_seconds : ℚ
  all_converged : Bool
  deriving DecidableEq, Repr

/-- _run_single_lambda (sweep.py lines 35-55): one λ's search with the sweep's
hard-wired find_optimal_mu defaults.  Wall-clock timing is outside the model,
so `elapsed_seconds` is 0. -/
def run_single_lambda (graph_data : GraphData)
    (lambda_param target_fraction tolerance : ℚ) :
    Except String LambdaResult :=
  match find_optimal_mu graph_data lambda_param target_fraction tolerance
      DEFAULT_MAX_ITERATIONS DEFAULT_MU_MIN none with
  | .error e => .error e
  | .ok sr =>
      .ok { lambda_param := lambda_param, search_result := sr,
            elapsed_seconds := 0 }

/-- The result-collection loop of sweep_lambda (sweep.py lines 114-145) over
the order in which `as_completed` yields the per-λ futures; any raised
exception (a search error, or the fail-fast RuntimeError on the first observed
non-convergence) aborts the whole sweep. -/
def sweepLoop (graph_data : GraphData) (target_fraction tolerance : ℚ)
    (raise_on_failure : Bool) :
    List ℚ → List (ℚ × LambdaResult) →
      Except String (List (ℚ × LambdaResult))
  | [], acc => .ok acc
  | lam :: rest, acc =>
      match run_single_lambda graph_data lam target_fraction tolerance with
      | .error e => .error e
      | .ok result =>
          let acc' := acc ++ [(lam, result)]
          if !result.search_result.converged && raise_on_failure then
            .error "RuntimeError: failed to converge"
          else
            sweepLoop graph_data target_fraction tolerance raise_on_failure
              rest acc'

/-- sweep_lambda (optimization/sweep.py lines 58-163).  The `order` argument is
the order in which the concurrent per-λ futures complete (a permutation of
`lambda_values`); everything else is deterministic.  Wall-clock aggregation is
outside the model, so `total_elapsed_seconds` is 0. -/
def sweep_lambda (graph_data : GraphData) (lambda_values : List ℚ)
    (target_fraction tolerance : ℚ) (raise_on_failure : Bool)
    (order : List ℚ) : Except String SweepResult :=
  match sweepLoop graph_data target_fraction tolerance raise_on_failure
      order [] with
  | .error e => .error e
  | .ok results =>
      .ok { results := results
            lambda_values := lambda_values
            total_iterations :=
              (results.map (fun p => p.2.search_result.iterations)).sum
            total_elapsed_seconds := 0
            all_converged :=
              results.all (fun p => p.2.search_result.converged) }

/-- Dict lookup `result.results[lam]` on the insertion-ordered association
list (keys are unique in any sweep output). -/
def lookupResult (results : List (ℚ × LambdaResult)) (lam : ℚ) :
    Option LambdaResult :=
  (results.find? (fun p => decide (p.1 = lam))).map (fun p => p.2)

/-- Modelled from the spec: the serialized form written by the external
`pickle` module (`pickle.dump` in save_sweep_result, sweep.py lines 166-175).
Pickle is not repository code; per spec §4.6/§6 persistence must be lossless,
so the artifact is modelled as a concrete tagged tree over the primitive
values pickle stores (ints, floats, bools, lists/tuples/dict items). -/
inductive PVal where
  | pint : ℤ → PVal
  | pnat : ℕ → PVal
  | prat : ℚ → PVal
  | pbool : Bool → PVal
  | plist : List PVal → PVal

/-- Serialization of an OptimizationResult's fields, in declaration order. -/
def encodeOptimizationResult (r : OptimizationResult) : PVal :=
  .plist [.plist (r.partition.map .pbool), .pint r.selected_population,
    .prat r.selected_area, .pint r.total_population, .prat r.total_area,
    .prat r.population_fraction, .pbool r.satisfied_target,
    .prat r.lambda_param, .prat r.mu, .prat r.flow_value]

/-- Deserialization of a list of booleans (a stored numpy bool array). -/
def decodeBoolList : List PVal → Option (List Bool)
  | [] => some []
  | .pbool b :: rest => (decodeBoolList rest).map (fun bs => b :: bs)
  | _ => none

/-- Deserialization of a list of rationals (a stored list of floats). -/
def decodeRatList : List PVal → Option (List ℚ)
  | [] => some []
  | .prat q :: rest => (decodeRatList rest).map (fun qs => q :: qs)
  | _ => none

/-- Deserialization of an OptimizationResult. -/
def decodeOptimizationResult : PVal → Option OptimizationResult
  | .plist [.plist part, .pint sp, .prat sa, .pint tp, .prat ta, .prat pf,
      .pbool st, .prat lp, .prat mu, .prat fv] =>
      (decodeBoolList part).map (fun partition =>
        { partition := partition, selected_population := sp,
          selected_area := sa, total_population := tp, total_area := ta,
          population_fraction := pf, satisfied_target := st,
          lambda_param := lp, mu := mu, flow_value := fv })
  | _ => none

/-- Serialization of a SearchResult. -/
def encodeSearchResult (r : SearchResult) : PVal :=
  .plist [encodeOptimizationResult r.result, .pnat r.iterations,
    .plist (r.mu_history.map .prat), .pbool r.converged]

/-- Deserialization of a SearchResult. -/
def decodeSearchResult : PVal → Option SearchResult
  | .plist [opt, .pnat iters, .plist hist, .pbool conv] =>
      match decodeOptimizationResult opt, decodeRatList hist with
      | some r, some mus =>
          some { result := r, iterations := iters, mu_history := mus,
                 converged := conv }
      | _, _ => none
  | _ => none

/-- Serialization of a LambdaResult. -/
def encodeLambdaResult (r : LambdaResult) : PVal :=
  .plist [.prat r.lambda_param, encodeSearchResult r.search_result,
    .prat r.elapsed_seconds]

/-- Deserialization of a LambdaResult. -/
def decodeLambdaResult : PVal → Option LambdaResult
  | .plist [.prat lp, sr, .prat el] =>
      (decodeSearchResult sr).map (fun s =>
        { lambda_param := lp, search_result := s, elapsed_seconds := el })
  | _ => none

/-- Serialization of the λ → LambdaResult dict, as its insertion-ordered
(key, value) item list. -/
def encodeResultEntries : List (ℚ × LambdaResult) → List PVal
  | [] => []
  | (lam, r) :: rest =>
      .plist [.prat lam, encodeLambdaResult r] :: encodeResultEntries rest

/-- Deserialization of the dict item list. -/
def decodeResultEntries : List PVal → Option (List (ℚ × LambdaResult))
  | [] => some []
  | .plist [.prat lam, r] :: rest =>
      match decodeLambdaResult r, decodeResultEntries rest with
      | some lr, some tail => some ((lam, lr) :: tail)
      | _, _ => none
  | _ => none

/-- Serialization of a SweepResult. -/
def encodeSweepResult (r : SweepResult) : PVal :=
  .plist [.plist (encodeResultEntries r.results),
    .plist (r.lambda_values.map .prat), .pnat r.total_iterations,
    .prat r.total_elapsed_seconds, .pbool r.all_converged]

/-- Deserialization of a SweepResult. -/
def decodeSweepResult : PVal → Option SweepResult
  | .plist [.plist entries, .plist lams, .pnat ti, .prat te, .pbool ac] =>
      match decodeResultEntries entries, decodeRatList lams with
      | some results, some lambda_values =>
          some { results := results, lambda_values := lambda_values,
                 total_iterations := ti, total_elapsed_seconds := te,
                 all_converged := ac }
      | _, _ => none
  | _ => none

/-- The on-disk store: path → serialized artifact (absent = no such file). -/
def FileSystem : Type := String → Option PVal

/-- save_sweep_result (sweep.py lines 166-175): write the pickled SweepResult
at the given path, overwriting. -/
def save_sweep_result (result : SweepResult) (path : String)
    (fs : FileSystem) : FileSystem :=
  fun q => if q = path then some (encodeSweepResult result) else fs q

/-- load_sweep_result (sweep.py lines 178-191): read and unpickle the artifact
at the given path; a missing path is FileNotFoundError. -/
def load_sweep_result (path : String) (fs : FileSystem) :
    Except String SweepResult :=
  match fs path with
  | none => .error "FileNotFoundError"
  | some v =>
      match decodeSweepResult v with
      | none => .error "UnpicklingError"
      | some r => .ok r

/-- Read of the shared `graph_data` binding, with the store threaded
explicitly so that a mutation of it would be representable. -/
def readGraphData (gd : GraphData) : GraphData × GraphData := (gd, gd)

/-- State-passing form of solve_partition: the shared GraphData store is
threaded through the call; solve_partition's accesses to it (attributes,
edges, num_nodes) are all reads, so the store it hands back is the one
produced by `readGraphData`. -/
def solve_partition_st (gd : GraphData) (lambda_param mu : ℚ) :
    Except String OptimizationResult × GraphData :=
  let (g, gd') := readGraphData gd
  (solve_partition g lambda_param mu, gd')

/-- State-passing form of the find_optimal_mu loop: the GraphData store is
threaded through every solve_partition_st call. -/
def muLoop_st (lambda_param target_pop pop_tolerance : ℚ)
    (max_iterations : ℕ) :
    ℕ → ℕ → ℚ → ℚ → List ℚ → Option OptimizationResult → GraphData →
      Except String SearchResult × GraphData
  | 0, _, _, _, mu_history, res, gd =>
      (match res with
       | none => .error "AssertionError: result is not None"
       | some r =>
          .ok { result := r, iterations := max_iterations,
                mu_history := mu_history, converged := false }, gd)
  | fuel + 1, iterDone, mu_min, mu_max, mu_history, _, gd =>
      let mu := (mu_min + mu_max) / 2
      let hist := mu_history ++ [mu]
      match solve_partition_st gd lambda_param mu with
      | (.error e, gd') => (.error e, gd')
      | (.ok result, gd') =>
          let err := ((result.selected_population : ℤ) : ℚ) - target_pop
          if |err| ≤ pop_tolerance then
            (.ok { result := result, iterations := iterDone + 1,
                   mu_history := hist, converged := true }, gd')
          else if ((result.selected_population : ℤ) : ℚ) < target_pop then
            muLoop_st lambda_param target_pop pop_tolerance max_iterations
              fuel (iterDone + 1) mu mu_max hist (some result) gd'
          else
            muLoop_st lambda_param target_pop pop_tolerance max_iterations
              fuel (iterDone + 1) mu_min mu hist (some result) gd'

/-- State-passing form of find_optimal_mu. -/
def find_optimal_mu_st (gd : GraphData)
    (lambda_param target_fraction tolerance : ℚ) (max_iterations : ℕ)
    (mu_min : ℚ) (mu_max : Option ℚ) :
    Except String SearchResult × GraphData :=
  let (g, gd') := readGraphData gd
  let total_pop := g.attributes.population.sum
  let target_pop := target_fraction * ((total_pop : ℤ) : ℚ)
  let pop_tolerance := tolerance * ((total_pop : ℤ) : ℚ)
  let mu_max' := resolve_mu_max g mu_max
  muLoop_st lambda_param target_pop pop_tolerance max_iterations
    max_iterations 0 mu_min mu_max' [] none gd'

/-- The 3-node path fixture of tests/test_optimization/conftest.py:
populations [100, 200, 300], areas 1000 m², ρ = 100 m, edges 0-1 and 1-2 of
shared length 50 m. -/
def gdA : GraphData :=
  { edges := [(0, 1), (1, 2)]
    attributes :=
      { population := [100, 200, 300]
        area := [1000, 1000, 1000]
        rho := 100
        edge_lengths := fun i j =>
          if (i = 0 ∧ j = 1) ∨ (i = 1 ∧ j = 0) ∨ (i = 1 ∧ j = 2) ∨
              (i = 2 ∧ j = 1) then 50 else 0 }
    num_nodes := 3
    num_edges := 2 }

/-- A 2-node edgeless graph with populations [1, 3] and areas [1/2, 30]
(ρ = 1): at μ = 1 exactly node 0 is selected, a quarter of the population. -/
def gdB : GraphData :=
  { edges := []
    attributes :=
      { population := [1, 3]
        area := [1/2, 30]
        rho := 1
        edge_lengths := fun _ _ => 0 }
    num_nodes := 2
    num_edges := 0 }

/-- A 2-node edgeless graph with populations [2, 3] and areas [1, 87/10]
(ρ = 1): node 0 joins for μ > 1/2 and node 1 for μ > 29/10, so a binary
search from [0, 4] tries μ = 2 (population 2) and then μ = 3 (population 5). -/
def gdC : GraphData :=
  { edges := []
    attributes :=
      { population := [2, 3]
        area := [1, 87/10]
        rho := 1
        edge_lengths := fun _ _ => 0 }
    num_nodes := 2
    num_edges := 0 }

/-- A 2-node graph with populations [1, 1] and areas [1, 1] (ρ = 1): the
selected population jumps between 0 and 2, so a target of one third of the
population with zero tolerance can never be met. -/
def gdD : GraphData :=
  { edges := [(0, 1)]
    attributes :=
      { population := [1, 1]
        area := [1, 1]
        rho := 1
        edge_lengths := fun _ _ => 1 }
    num_nodes := 2
    num_edges := 1 }

/-- The result of `solve_partition gdA 0 0`: with no population reward every
node stays excluded. -/
def rEmpty : OptimizationResult :=
  { partition := [false, false, false], selected_population := 0,
    selected_area := 0, total_population := 600, total_area := 3000,
    population_fraction := 0, satisfied_target := false, lambda_param := 0,
    mu := 0, flow_value := 0 }

/-- The result of `solve_partition gdA (1/2) 1`: the reward dominates and all
three nodes are selected; the cut capacity is the three sink links. -/
def rFull : OptimizationResult :=
  { partition := [true, true, true], selected_population := 600,
    selected_area := 3000, total_population := 600, total_area := 3000,
    population_fraction := 1, satisfied_target := false, lambda_param := 1/2,
    mu := 1, flow_value := 3/20 }

/-- The result of `solve_partition gdA (1/2) 2`: as `rFull` but at μ = 2. -/
def rFull2 : OptimizationResult :=
  { partition := [true, true, true], selected_population := 600,
    selected_area := 3000, total_population := 600, total_area := 3000,
    population_fraction := 1, satisfied_target := false, lambda_param := 1/2,
    mu := 2, flow_value := 3/20 }

/-- The result of `solve_partition gdA (1/2) 0`: at μ = 0 nothing is
selected. -/
def rEmptyHalf : OptimizationResult :=
  { partition := [false, false, false], selected_population := 0,
    selected_area := 0, total_population := 600, total_area := 3000,
    population_fraction := 0, satisfied_target := false, lambda_param := 1/2,
    mu := 0, flow_value := 0 }

deriving instance DecidableEq for Except

/-! ## Supporting lemmas -/

theorem maskSumZ_add_not : ∀ (ps : List ℤ) (bs : List Bool),
    ps.length = bs.length →
    maskSumZ ps bs + maskSumZ ps (bs.map (fun b => !b)) = ps.sum
  | [], [], _ => by simp [maskSumZ]
  | [], _ :: _, h => by simp at h
  | _ :: _, [], h => by simp at h
  | p :: ps, b :: bs, h => by
      have ih := maskSumZ_add_not ps bs (by simpa using h)
      cases b <;> simp [maskSumZ] <;> omega

theorem maskSumQ_add_not : ∀ (as' : List ℚ) (bs : List Bool),
    as'.length = bs.length →
    maskSumQ as' bs + maskSumQ as' (bs.map (fun b => !b)) = as'.sum
  | [], [], _ => by simp [maskSumQ]
  | [], _ :: _, h => by simp at h
  | _ :: _, [], h => by simp at h
  | a :: as', b :: bs, h => by
      have ih := maskSumQ_add_not as' bs (by simpa using h)
      cases b <;> simp [maskSumQ] <;> linarith

theorem mem_allBitVecs_length : ∀ (n : ℕ) (x : List Bool),
    x ∈ allBitVecs n → x.length = n
  | 0, x, hx => by
      simp [allBitVecs] at hx
      simp [hx]
  | n + 1, x, hx => by
      simp only [allBitVecs, List.mem_append, List.mem_map] at hx
      rcases hx with ⟨y, hy, rfl⟩ | ⟨y, hy, rfl⟩ <;>
        simp [mem_allBitVecs_length n y hy]

theorem replicate_false_mem_allBitVecs : ∀ (n : ℕ),
    List.replicate n false ∈ allBitVecs n
  | 0 => by simp [allBitVecs]
  | n + 1 => by
      simp only [allBitVecs, List.mem_append, List.mem_map]
      exact .inl ⟨List.replicate n false, replicate_false_mem_allBitVecs n,
        (List.replicate_succ false n).symm⟩

theorem pickMin_cons {α : Type} (f : α → ℚ) (c a : α) (l : List α) :
    pickMin f c (a :: l) = pickMin f (if f a < f c then a else c) l := rfl

theorem pickMin_mem {α : Type} (f : α → ℚ) : ∀ (l : List α) (c : α),
    pickMin f c l = c ∨ pickMin f c l ∈ l
  | [], _ => .inl rfl
  | a :: l, c => by
      rw [pickMin_cons]
      rcases pickMin_mem f l (if f a < f c then a else c) with h | h
      · rw [h]
        split
        · exact .inr (List.mem_cons_self a l)
        · exact .inl rfl
      · exact .inr (List.mem_cons_of_mem a h)

theorem pickMin_le_start {α : Type} (f : α → ℚ) : ∀ (l : List α) (c : α),
    f (pickMin f c l) ≤ f c
  | [], _ => le_refl _
  | a :: l, c => by
      rw [pickMin_cons]
      by_cases hc : f a < f c
      · rw [if_pos hc]
        exact le_trans (pickMin_le_start f l a) (le_of_lt hc)
      · rw [if_neg hc]
        exact pickMin_le_start f l c

theorem pickMin_le_of_mem {α : Type} (f : α → ℚ) :
    ∀ (l : List α) (c x : α), x ∈ l → f (pickMin f c l) ≤ f x
  | a :: l, c, x, hx => by
      rw [pickMin_cons]
      rcases List.mem_cons.mp hx with rfl | hx
      · by_cases hc : f x < f c
        · rw [if_pos hc]
          exact pickMin_le_start f l x
        · rw [if_neg hc]
          exact le_trans (pickMin_le_start f l c) (not_lt.mp hc)
      · exact pickMin_le_of_mem f l _ x hx

theorem minCutPartition_length (attributes : GraphAttributes)
    (edges : List (ℕ × ℕ)) (lambda_param mu : ℚ) (n : ℕ) :
    (minCutPartition attributes edges lambda_param mu n).length = n := by
  unfold minCutPartition
  rcases pickMin_mem (cutValue attributes edges lambda_param mu)
      (allBitVecs n) (List.replicate n false) with h | h
  · rw [h]; simp
  · exact mem_allBitVecs_length n _ h

theorem minCutPartition_mem (attributes : GraphAttributes)
    (edges : List (ℕ × ℕ)) (lambda_param mu : ℚ) (n : ℕ) :
    minCutPartition attributes edges lambda_param mu n ∈ allBitVecs n := by
  unfold minCutPartition
  rcases pickMin_mem (cutValue attributes edges lambda_param mu)
      (allBitVecs n) (List.replicate n false) with h | h
  · rw [h]; exact replicate_false_mem_allBitVecs n
  · exact h

theorem minCutPartition_le (attributes : GraphAttributes)
    (edges : List (ℕ × ℕ)) (lambda_param mu : ℚ) (n : ℕ) (x : List Bool)
    (hx : x ∈ allBitVecs n) :
    cutValue attributes edges lambda_param mu
        (minCutPartition attributes edges lambda_param mu n) ≤
      cutValue attributes edges lambda_param mu x := by
  exact pickMin_le_of_mem _ _ _ x hx

theorem tlinkCut_eq (lambda_param mu rho : ℚ) (ps : List ℤ) (as' : List ℚ)
    (bs : List Bool) (h1 : ps.length = bs.length)
    (h2 : as'.length = bs.length) :
    tlinkCut lambda_param mu rho ps as' bs =
      (1 - lambda_param) * maskSumQ as' bs / rho ^ 2 +
        mu * (((ps.sum : ℤ) : ℚ) - ((maskSumZ ps bs : ℤ) : ℚ)) := by
  induction bs generalizing ps as' with
  | nil =>
      cases ps with
      | nil =>
          cases as' with
          | nil => simp [tlinkCut, maskSumQ, maskSumZ]
          | cons _ _ => simp at h2
      | cons _ _ => simp at h1
  | cons b bs ih =>
      cases ps with
      | nil => simp at h1
      | cons p ps =>
          cases as' with
          | nil => simp at h2
          | cons a as' =>
              have h := ih ps as' (by simpa using h1) (by simpa using h2)
              cases b <;>
                simp only [tlinkCut, maskSumQ, maskSumZ, if_true, if_false,
                  Bool.false_eq_true, List.sum_cons, h] <;>
                push_cast <;> ring

theorem boundaryCost_eq_nlinkCut (lambda_param rho : ℚ)
    (edge_lengths : ℕ → ℕ → ℚ) (partition : List Bool) :
    ∀ es : List (ℕ × ℕ),
      boundaryCost lambda_param rho edge_lengths partition es =
        nlinkCut lambda_param rho edge_lengths partition es
  | [] => rfl
  | (i, j) :: es => by
      simp only [boundaryCost, nlinkCut,
        boundaryCost_eq_nlinkCut lambda_param rho edge_lengths partition es]

theorem cutValue_eq_energy (attributes : GraphAttributes)
    (edges : List (ℕ × ℕ)) (lambda_param mu : ℚ) (x : List Bool)
    (h1 : attributes.population.length = x.length)
    (h2 : attributes.area.length = x.length) :
    cutValue attributes edges lambda_param mu x =
      compute_energy attributes edges x lambda_param mu +
        mu * ((attributes.population.sum : ℤ) : ℚ) := by
  unfold cutValue compute_energy
  rw [tlinkCut_eq lambda_param mu attributes.rho attributes.population
      attributes.area x h1 h2,
    boundaryCost_eq_nlinkCut]
  ring

theorem solve_partition_ok_inv {gd : GraphData} {lambda_param mu : ℚ}
    {r : OptimizationResult} (h : solve_partition gd lambda_param mu = .ok r) :
    r.partition =
        minCutPartition gd.attributes gd.edges lambda_param mu gd.num_nodes ∧
      r.selected_population = maskSumZ gd.attributes.population r.partition ∧
      r.selected_area = maskSumQ gd.attributes.area r.partition ∧
      r.total_population = gd.attributes.population.sum ∧
      r.total_area = gd.attributes.area.sum ∧
      r.population_fraction =
        ((r.selected_population : ℤ) : ℚ) / ((r.total_population : ℤ) : ℚ) ∧
      r.satisfied_target =
        decide (|r.population_fraction - 1/2| ≤ TARGET_TOLERANCE) ∧
      r.lambda_param = lambda_param ∧ r.mu = mu ∧
      r.flow_value =
        cutValue gd.attributes gd.edges lambda_param mu r.partition ∧
      r.total_population ≠ 0 := by
  unfold solve_partition at h
  split at h
  · exact absurd h (by simp)
  · split at h
    · exact absurd h (by simp)
    · simp only [] at h
      split at h
      · exact absurd h (by simp)
      · injection h with h
        subst h
        refine ⟨rfl, rfl, rfl, rfl, rfl, rfl, rfl, rfl, rfl, rfl, ?_⟩
        assumption

theorem solve_partition_isOk {gd : GraphData} {lambda_param mu : ℚ}
    (h0 : 0 ≤ lambda_param) (h1 : lambda_param ≤ 1) (h2 : 0 ≤ mu)
    (h3 : gd.attributes.population.sum ≠ 0) :
    ∃ r, solve_partition gd lambda_param mu = .ok r := by
  unfold solve_partition
  rw [if_neg (not_not_intro ⟨h0, h1⟩), if_neg (not_lt.mpr h2)]
  simp only [if_neg h3]
  exact ⟨_, rfl⟩

theorem minCut_population_monotone (attributes : GraphAttributes)
    (edges : List (ℕ × ℕ)) (lambda_param : ℚ) (n : ℕ)
    (hp : attributes.population.length = n) (ha : attributes.area.length = n)
    {mu1 mu2 : ℚ} (hmu : mu1 < mu2) :
    maskSumZ attributes.population
        (minCutPartition attributes edges lambda_param mu1 n) ≤
      maskSumZ attributes.population
        (minCutPartition attributes edges lambda_param mu2 n) := by
  set x1 := minCutPartition attributes edges lambda_param mu1 n with hx1
  set x2 := minCutPartition attributes edges lambda_param mu2 n with hx2
  have hx1m : x1 ∈ allBitVecs n :=
    minCutPartition_mem attributes edges lambda_param mu1 n
  have hx2m : x2 ∈ allBitVecs n :=
    minCutPartition_mem attributes edges lambda_param mu2 n
  have hd : ∀ (mu : ℚ) (x : List Bool), x ∈ allBitVecs n →
      cutValue attributes edges lambda_param mu x =
        ((1 - lambda_param) * maskSumQ attributes.area x /
            attributes.rho ^ 2 +
          nlinkCut lambda_param attributes.rho attributes.edge_lengths x
            edges) +
          mu * (((attributes.population.sum : ℤ) : ℚ) -
            ((maskSumZ attributes.population x : ℤ) : ℚ)) := by
    intro mu x hx
    unfold cutValue
    rw [tlinkCut_eq lambda_param mu attributes.rho attributes.population
        attributes.area x (by rw [hp, mem_allBitVecs_length n x hx])
        (by rw [ha, mem_allBitVecs_length n x hx])]
    ring
  have h12 : cutValue attributes edges lambda_param mu1 x1 ≤
      cutValue attributes edges lambda_param mu1 x2 :=
    minCutPartition_le attributes edges lambda_param mu1 n x2 hx2m
  have h21 : cutValue attributes edges lambda_param mu2 x2 ≤
      cutValue attributes edges lambda_param mu2 x1 :=
    minCutPartition_le attributes edges lambda_param mu2 n x1 hx1m
  rw [hd mu1 x1 hx1m, hd mu1 x2 hx2m] at h12
  rw [hd mu2 x2 hx2m, hd mu2 x1 hx1m] at h21
  have hq : ((maskSumZ attributes.population x1 : ℤ) : ℚ) ≤
      ((maskSumZ attributes.population x2 : ℤ) : ℚ) := by
    by_contra hc
    push_neg at hc
    nlinarith [h12, h21, mul_pos (sub_pos.mpr hmu) (sub_pos.mpr hc)]
  exact_mod_cast hq

theorem muLoop_ok (gd : GraphData) (lam tpop ptol : ℚ) (maxIter : ℕ)
    (hl0 : 0 ≤ lam) (hl1 : lam ≤ 1)
    (hpop : gd.attributes.population.sum ≠ 0) :
    ∀ (fuel iterDone : ℕ) (muMin muMax : ℚ) (hist : List ℚ)
      (res : Option OptimizationResult),
      0 ≤ muMin → 0 ≤ muMax → iterDone + fuel = maxIter →
      hist.length = iterDone →
      (res = none → iterDone = 0) →
      (∀ r0, res = some r0 → ∃ m, hist.getLast? = some m ∧
          solve_partition gd lam m = .ok r0) →
      1 ≤ iterDone + fuel →
      ∃ r, muLoop gd lam tpop ptol maxIter fuel iterDone muMin muMax hist
          res = .ok r ∧
        r.iterations = r.mu_history.length ∧ 1 ≤ r.iterations ∧
        (r.converged = false → r.iterations = maxIter ∧
          ∃ m, r.mu_history.getLast? = some m ∧
            solve_partition gd lam m = .ok r.result) := by
  intro fuel
  induction fuel with
  | zero =>
      intro iterDone muMin muMax hist res _ _ hiter hhist hres hres2 hpos
      cases res with
      | none =>
          have := hres rfl
          omega
      | some r0 =>
          simp only [muLoop]
          refine ⟨_, rfl, ?_, ?_, ?_⟩
          · simp only []
            omega
          · simp only []
            omega
          · intro _
            obtain ⟨m, hm1, hm2⟩ := hres2 r0 rfl
            exact ⟨rfl, m, hm1, hm2⟩
  | succ fuel ih =>
      intro iterDone muMin muMax hist res hm1 hm2 hiter hhist hres hres2 hpos
      have hmu : 0 ≤ (muMin + muMax) / 2 :=
        div_nonneg (by linarith) (by norm_num)
      obtain ⟨r1, hsolve⟩ := solve_partition_isOk hl0 hl1 hmu hpop
      simp only [muLoop]
      rw [hsolve]
      simp only []
      by_cases hconv :
          |((r1.selected_population : ℤ) : ℚ) - tpop| ≤ ptol
      · rw [if_pos hconv]
        refine ⟨_, rfl, ?_, ?_, ?_⟩
        · simp [hhist]
        · simp
        · intro hfalse
          simp at hfalse
      · rw [if_neg hconv]
        by_cases hlt : ((r1.selected_population : ℤ) : ℚ) < tpop
        · rw [if_pos hlt]
          refine ih (iterDone + 1) ((muMin + muMax) / 2) muMax
            (hist ++ [(muMin + muMax) / 2]) (some r1) hmu hm2 (by omega)
            (by simp [hhist]) (by intro hx; cases hx) ?_ (by omega)
          intro r0 hr0
          injection hr0 with hr0
          subst hr0
          exact ⟨(muMin + muMax) / 2, List.getLast?_concat _, hsolve⟩
        · rw [if_neg hlt]
          refine ih (iterDone + 1) muMin ((muMin + muMax) / 2)
            (hist ++ [(muMin + muMax) / 2]) (some r1) hm1 hmu (by omega)
            (by simp [hhist]) (by intro hx; cases hx) ?_ (by omega)
          intro r0 hr0
          injection hr0 with hr0
          subst hr0
          exact ⟨(muMin + muMax) / 2, List.getLast?_concat _, hsolve⟩

theorem run_single_lambda_of_isSome {gd : GraphData} {lam target tol : ℚ}
    (h : (run_single_lambda gd lam target tol).toOption.isSome = true) :
    ∃ lr, run_single_lambda gd lam target tol = .ok lr := by
  cases hrun : run_single_lambda gd lam target tol with
  | error e => rw [hrun] at h; simp [Except.toOption] at h
  | ok lr => exact ⟨lr, rfl⟩

theorem sweepLoop_error_of_nonconverged (gd : GraphData) (target tol : ℚ)
    (lam0 : ℚ)
    (hnc : (run_single_lambda gd lam0 target tol).toOption.map
      (fun lr => lr.search_result.converged) = some false) :
    ∀ (order : List ℚ) (acc : List (ℚ × LambdaResult)), lam0 ∈ order →
      (∀ lam ∈ order,
        (run_single_lambda gd lam target tol).toOption.isSome = true) →
      ∃ e, sweepLoop gd target tol true order acc = .error e
  | lam :: rest, acc, hmem, hall => by
      obtain ⟨lr, hrun⟩ :=
        run_single_lambda_of_isSome (hall lam (List.mem_cons_self lam rest))
      simp only [sweepLoop]
      rw [hrun]
      simp only []
      cases hc : lr.search_result.converged with
      | false => exact ⟨_, rfl⟩
      | true =>
          simp only [hc, Bool.not_true, Bool.false_and, Bool.false_eq_true,
            if_false]
          rcases List.mem_cons.mp hmem with rfl | hmem'
          · rw [hrun] at hnc
            simp [Except.toOption, hc] at hnc
          · exact sweepLoop_error_of_nonconverged gd target tol lam0 hnc rest
              (acc ++ [(lam, lr)]) hmem'
              (fun l hl => hall l (List.mem_cons_of_mem lam hl))

theorem sweepLoop_bestEffort (gd : GraphData) (target tol : ℚ) :
    ∀ (order : List ℚ) (acc : List (ℚ × LambdaResult)),
      (∀ lam ∈ order,
        (run_single_lambda gd lam target tol).toOption.isSome = true) →
      ∃ res, sweepLoop gd target tol false order acc = .ok res ∧
        res.map Prod.fst = acc.map Prod.fst ++ order ∧
        ∀ p ∈ res, p ∈ acc ∨ run_single_lambda gd p.1 target tol = .ok p.2
  | [], acc, _ => ⟨acc, rfl, by simp, fun p hp => .inl hp⟩
  | lam :: rest, acc, hall => by
      obtain ⟨lr, hrun⟩ :=
        run_single_lambda_of_isSome (hall lam (List.mem_cons_self lam rest))
      simp only [sweepLoop]
      rw [hrun]
      simp only [Bool.and_false, Bool.false_eq_true, if_false]
      obtain ⟨res, hres, hkeys, hmem⟩ :=
        sweepLoop_bestEffort gd target tol rest (acc ++ [(lam, lr)])
          (fun l hl => hall l (List.mem_cons_of_mem lam hl))
      refine ⟨res, hres, ?_, ?_⟩
      · rw [hkeys]; simp
      · intro p hp
        rcases hmem p hp with hp' | hp'
        · rcases List.mem_append.mp hp' with hp'' | hp''
          · exact .inl hp''
          · simp only [List.mem_singleton] at hp''
            subst hp''
            exact .inr hrun
        · exact .inr hp'

theorem find?_of_mem_keys {β : Type} :
    ∀ (res : List (ℚ × β)) (lam : ℚ), lam ∈ res.map Prod.fst →
      ∃ p, res.find? (fun q => decide (q.1 = lam)) = some p ∧ p ∈ res ∧
        p.1 = lam
  | p :: res, lam, hmem => by
      by_cases hp : p.1 = lam
      · exact ⟨p, List.find?_cons_of_pos _ (by simp [hp]),
          List.mem_cons_self p res, hp⟩
      · have hmem' : lam ∈ res.map Prod.fst := by
          simp only [List.map_cons, List.mem_cons] at hmem
          rcases hmem with h | h
          · exact absurd h.symm hp
          · exact h
        obtain ⟨q, hq1, hq2, hq3⟩ := find?_of_mem_keys res lam hmem'
        exact ⟨q, by rw [List.find?_cons_of_neg _ (by simp [hp]), hq1],
          List.mem_cons_of_mem p hq2, hq3⟩

theorem all_eq_false_of_mem {α : Type} {p : α → Bool} {l : List α} {x : α}
    (hx : x ∈ l) (hp : p x = false) : l.all p = false := by
  cases h : l.all p with
  | false => rfl
  | true =>
      rw [List.all_eq_true] at h
      rw [h x hx] at hp
      cases hp

theorem muLoop_st_preserves (lam tpop ptol : ℚ) (maxIter : ℕ) :
    ∀ (fuel iterDone : ℕ) (muMin muMax : ℚ) (hist : List ℚ)
      (res : Option OptimizationResult) (gd : GraphData),
      (muLoop_st lam tpop ptol maxIter fuel iterDone muMin muMax hist res
        gd).2 = gd
  | 0, _, _, _, _, res, gd => by cases res <;> rfl
  | fuel + 1, iterDone, muMin, muMax, hist, res, gd => by
      simp only [muLoop_st, solve_partition_st, readGraphData]
      cases hsolve : solve_partition gd lam ((muMin + muMax) / 2) with
      | error e => simp only []
      | ok r =>
          simp only []
          split
          · rfl
          · split <;>
              exact muLoop_st_preserves lam tpop ptol maxIter fuel
                (iterDone + 1) _ _ _ _ gd

theorem decodeBoolList_encode : ∀ bs : List Bool,
    decodeBoolList (bs.map PVal.pbool) = some bs
  | [] => rfl
  | b :: bs => by
      simp only [List.map_cons, decodeBoolList, decodeBoolList_encode bs,
        Option.map_some']

theorem decodeRatList_encode : ∀ qs : List ℚ,
    decodeRatList (qs.map PVal.prat) = some qs
  | [] => rfl
  | q :: qs => by
      simp only [List.map_cons, decodeRatList, decodeRatList_encode qs,
        Option.map_some']

theorem decodeOptimizationResult_encode (r : OptimizationResult) :
    decodeOptimizationResult (encodeOptimizationResult r) = some r := by
  cases r
  simp only [encodeOptimizationResult, decodeOptimizationResult,
    decodeBoolList_encode, Option.map_some']

theorem decodeSearchResult_encode (r : SearchResult) :
    decodeSearchResult (encodeSearchResult r) = some r := by
  cases r
  simp only [encodeSearchResult, decodeSearchResult,
    decodeOptimizationResult_encode, decodeRatList_encode]

theorem decodeLambdaResult_encode (r : LambdaResult) :
    decodeLambdaResult (encodeLambdaResult r) = some r := by
  cases r
  simp only [encodeLambdaResult, decodeLambdaResult,
    decodeSearchResult_encode, Option.map_some']

theorem decodeResultEntries_encode : ∀ rs : List (ℚ × LambdaResult),
    decodeResultEntries (encodeResultEntries rs) = some rs
  | [] => rfl
  | (lam, r) :: rs => by
      simp only [encodeResultEntries, decodeResultEntries,
        decodeLambdaResult_encode, decodeResultEntries_encode rs]

theorem decodeSweepResult_encode (r : SweepResult) :
    decodeSweepResult (encodeSweepResult r) = some r := by
  cases r
  simp only [encodeSweepResult, decodeSweepResult,
    decodeResultEntries_encode, decodeRatList_encode]

/-! ## Claim theorems -/

section ClaimTheorems

attribute [local semireducible] Rat.mul Rat.add Rat.inv Rat.sub

set_option maxRecDepth 40000

/-- Claim C1: the claim states that every lambda_param outside [0,1) — in
particular λ = 1 — is rejected by validation before any solver work.  The
embedded code refutes the λ = 1 part: validation `0 <= lambda_param <= 1`
accepts λ = 1 and the solve returns a result, while λ = 3/2 and μ = -1 are
rejected as claimed. -/
theorem C1_lambda_one_not_rejected :
    (solve_partition gdA 1 (1/100)).toOption.isSome = true ∧
      (solve_partition gdA (3/2) (1/100)).toOption.isSome = false ∧
      (solve_partition gdA (1/2) (-1)).toOption.isSome = false := by
  refine ⟨by decide, by decide, by decide⟩

/-- Claim C2, counterexample: a search run configured with target fraction
1/4 and tolerance 1/100 produces an OptimizationResult whose
population_fraction 1/4 is exactly on target, yet satisfied_target is false —
so satisfied_target is not 'within tolerance of the configured target'. -/
theorem C2_counterexample :
    (find_optimal_mu gdB 0 (1/4) (1/100) 50 0 (some 2)).toOption.map
        (fun r => (r.result.population_fraction, r.result.satisfied_target)) =
      some (1/4, false) ∧
    |(1/4 : ℚ) - 1/4| ≤ 1/100 := by
  refine ⟨by decide, by decide⟩

/-- Claim C2 (amended): for every OptimizationResult produced by
solve_partition (hence every result seen during a search run),
satisfied_target is true iff population_fraction is within the fixed
TARGET_TOLERANCE = 0.01 of the fixed 0.5 — regardless of the search's
configured target fraction and tolerance. -/
theorem C2_satisfied_target_fixed_half (gd : GraphData) (lam mu : ℚ)
    (r : OptimizationResult) (h : solve_partition gd lam mu = .ok r) :
    r.satisfied_target = true ↔
      |r.population_fraction - 1/2| ≤ TARGET_TOLERANCE := by
  obtain ⟨_, _, _, _, _, _, hst, _, _, _, _⟩ := solve_partition_ok_inv h
  rw [hst]
  exact decide_eq_true_iff

/-- Witness for C2's amended theorem at the concrete solve
`solve_partition gdA 0 0`. -/
theorem C2_satisfied_target_fixed_half_witness :
    solve_partition gdA 0 0 = .ok rEmpty ∧
      (rEmpty.satisfied_target = true ↔
        |rEmpty.population_fraction - 1/2| ≤ TARGET_TOLERANCE) :=
  ⟨by decide, C2_satisfied_target_fixed_half gdA 0 0 rEmpty (by decide)⟩

/-- Claim C3, counterexample: on gdC (total population 5, target 5/2) a
2-iteration search tries μ = 2 (selected population 2, distance 1/2 from
target) and μ = 3 (selected population 5, distance 5/2), hits the cap, and
returns the LAST result (population 5) — not the trial closest to the
target. -/
theorem C3_counterexample :
    (find_optimal_mu gdC 0 (1/2) (1/100) 2 0 (some 4)).toOption.map
        (fun r => (r.converged, r.result.selected_population, r.mu_history)) =
      some (false, 5, [2, 3]) ∧
    (solve_partition gdC 0 2).toOption.map
        (fun r => r.selected_population) = some 2 ∧
    |(2 : ℚ) - (1/2) * 5| < |(5 : ℚ) - (1/2) * 5| := by
  refine ⟨by decide, by decide, by decide⟩

/-- Claim C3 (amended): when find_optimal_mu reaches the iteration cap it
returns normally (no error) a SearchResult with converged = false whose
OptimizationResult is the result of the final trial — the last μ in
mu_history — which need not be the trial closest to the target. -/
theorem C3_cap_returns_final_trial (gd : GraphData)
    (lam target_fraction tolerance : ℚ) (max_iterations : ℕ) (mu_min : ℚ)
    (mu_max : Option ℚ) (hl0 : 0 ≤ lam) (hl1 : lam ≤ 1) (hm1 : 0 ≤ mu_min)
    (hm2 : 0 ≤ resolve_mu_max gd mu_max)
    (hpop : gd.attributes.population.sum ≠ 0) (hiter : 1 ≤ max_iterations) :
    ∃ r, find_optimal_mu gd lam target_fraction tolerance max_iterations
        mu_min mu_max = .ok r ∧
      (r.converged = false → r.iterations = max_iterations ∧
        ∃ m, r.mu_history.getLast? = some m ∧
          solve_partition gd lam m = .ok r.result) := by
  obtain ⟨r, hr, _, _, hcap⟩ :=
    muLoop_ok gd lam
      (target_fraction * ((gd.attributes.population.sum : ℤ) : ℚ))
      (tolerance * ((gd.attributes.population.sum : ℤ) : ℚ)) max_iterations
      hl0 hl1 hpop max_iterations 0 mu_min (resolve_mu_max gd mu_max) [] none
      hm1 hm2 (by omega) rfl (fun _ => rfl) (fun r0 h => by cases h)
      (by omega)
  exact ⟨r, hr, hcap⟩

/-- Witness for C3's amended theorem at the concrete non-converging search on
gdC. -/
theorem C3_cap_returns_final_trial_witness :
    ∃ r, find_optimal_mu gdC 0 (1/2) (1/100) 2 0 (some 4) = .ok r ∧
      (r.converged = false → r.iterations = 2 ∧
        ∃ m, r.mu_history.getLast? = some m ∧
          solve_partition gdC 0 m = .ok r.result) :=
  C3_cap_returns_final_trial gdC 0 (1/2) (1/100) 2 0 (some 4) (by decide)
    (by decide) (by decide) (by decide) (by decide) (by decide)

/-- Claim C4: for every OptimizationResult returned by solve_partition, the
selected population plus the population of the unselected nodes equals the
total population exactly, the selected area plus the unselected area equals
the total area exactly (hence within any floating rounding), and the
partition is a boolean vector of length num_nodes. -/
theorem C4_partition_exhaustive (gd : GraphData) (lam mu : ℚ)
    (r : OptimizationResult) (h : solve_partition gd lam mu = .ok r)
    (hp : gd.attributes.population.length = gd.num_nodes)
    (ha : gd.attributes.area.length = gd.num_nodes) :
    r.selected_population + unselected_population gd.attributes r.partition =
        r.total_population ∧
      r.selected_area + unselected_area gd.attributes r.partition =
        r.total_area ∧
      r.partition.length = gd.num_nodes := by
  obtain ⟨hpart, hsel, hselA, htot, htotA, _⟩ := solve_partition_ok_inv h
  have hlen : r.partition.length = gd.num_nodes := by
    rw [hpart]
    exact minCutPartition_length gd.attributes gd.edges lam mu gd.num_nodes
  refine ⟨?_, ?_, hlen⟩
  · rw [hsel, htot]
    exact maskSumZ_add_not gd.attributes.population r.partition
      (by rw [hp, hlen])
  · rw [hselA, htotA]
    exact maskSumQ_add_not gd.attributes.area r.partition (by rw [ha, hlen])

/-- Witness for C4 at the concrete solve `solve_partition gdA (1/2) 1`. -/
theorem C4_partition_exhaustive_witness :
    rFull.selected_population +
        unselected_population gdA.attributes rFull.partition =
      rFull.total_population ∧
    rFull.selected_area + unselected_area gdA.attributes rFull.partition =
      rFull.total_area ∧
    rFull.partition.length = gdA.num_nodes :=
  C4_partition_exhaustive gdA (1/2) 1 rFull (by decide) (by decide)
    (by decide)

/-- Claim C5: the minimum-cut objective value (flow_value) returned by
solve_partition equals compute_energy at the returned partition plus the
fixed additive constant μ·total_population of the formulation — exactly, in
the exact-rational model. -/
theorem C5_flow_value_matches_energy (gd : GraphData) (lam mu : ℚ)
    (r : OptimizationResult) (h : solve_partition gd lam mu = .ok r)
    (hp : gd.attributes.population.length = gd.num_nodes)
    (ha : gd.attributes.area.length = gd.num_nodes) :
    r.flow_value =
      compute_energy gd.attributes gd.edges r.partition lam mu +
        mu * ((gd.attributes.population.sum : ℤ) : ℚ) := by
  obtain ⟨hpart, _, _, _, _, _, _, _, _, hflow, _⟩ := solve_partition_ok_inv h
  have hlen : r.partition.length = gd.num_nodes := by
    rw [hpart]
    exact minCutPartition_length gd.attributes gd.edges lam mu gd.num_nodes
  rw [hflow]
  exact cutValue_eq_energy gd.attributes gd.edges lam mu r.partition
    (by rw [hp, hlen]) (by rw [ha, hlen])

/-- Witness for C5 at the concrete solve `solve_partition gdA (1/2) 2`. -/
theorem C5_flow_value_matches_energy_witness :
    rFull2.flow_value =
      compute_energy gdA.attributes gdA.edges rFull2.partition (1/2) 2 +
        2 * ((gdA.attributes.population.sum : ℤ) : ℚ) :=
  C5_flow_value_matches_energy gdA (1/2) 2 rFull2 (by decide) (by decide)
    (by decide)

/-- Claim C6: for a fixed λ and fixed GraphAttributes, and non-negative
μ1 < μ2, the selected population returned by solve_partition at μ1 is at
most the selected population returned at μ2. -/
theorem C6_selected_population_monotone (gd : GraphData) (lam mu1 mu2 : ℚ)
    (r1 r2 : OptimizationResult) (_hmu0 : 0 ≤ mu1) (hmu : mu1 < mu2)
    (hp : gd.attributes.population.length = gd.num_nodes)
    (ha : gd.attributes.area.length = gd.num_nodes)
    (h1 : solve_partition gd lam mu1 = .ok r1)
    (h2 : solve_partition gd lam mu2 = .ok r2) :
    r1.selected_population ≤ r2.selected_population := by
  obtain ⟨hpart1, hsel1, _⟩ := solve_partition_ok_inv h1
  obtain ⟨hpart2, hsel2, _⟩ := solve_partition_ok_inv h2
  rw [hsel1, hsel2, hpart1, hpart2]
  exact minCut_population_monotone gd.attributes gd.edges lam gd.num_nodes
    hp ha hmu

/-- Witness for C6 on gdA with μ1 = 0 < μ2 = 1 at λ = 1/2. -/
theorem C6_selected_population_monotone_witness :
    rEmptyHalf.selected_population ≤ rFull.selected_population :=
  C6_selected_population_monotone gdA (1/2) 0 1 rEmptyHalf rFull (by decide)
    (by decide) (by decide) (by decide) (by decide) (by decide)

/-- Claim C7: if some λ in the completion order fails to converge (and every
per-λ search itself returns), then under the fail-fast policy the sweep
raises and yields no SweepResult, while under the best-effort policy it
returns a SweepResult in which that λ's entry has converged = false and
all_converged = false. -/
theorem C7_sweep_failure_policies (gd : GraphData)
    (lambda_values order : List ℚ) (target tol lam0 : ℚ)
    (hmem : lam0 ∈ order)
    (hnc : (run_single_lambda gd lam0 target tol).toOption.map
      (fun lr => lr.search_result.converged) = some false)
    (hall : ∀ lam ∈ order,
      (run_single_lambda gd lam target tol).toOption.isSome = true) :
    (∃ e, sweep_lambda gd lambda_values target tol true order = .error e) ∧
    (∃ res, sweep_lambda gd lambda_values target tol false order = .ok res ∧
      (∃ lr, lookupResult res.results lam0 = some lr ∧
        lr.search_result.converged = false) ∧
      res.all_converged = false) := by
  constructor
  · obtain ⟨e, he⟩ := sweepLoop_error_of_nonconverged gd target tol lam0 hnc
      order [] hmem hall
    refine ⟨e, ?_⟩
    simp only [sweep_lambda, he]
  · obtain ⟨res, hres, hkeys, hmemP⟩ :=
      sweepLoop_bestEffort gd target tol order [] hall
    have hkeys' : lam0 ∈ res.map Prod.fst := by
      rw [hkeys]
      simpa using hmem
    obtain ⟨p, hfind, hpmem, hpfst⟩ := find?_of_mem_keys res lam0 hkeys'
    have hrunp : run_single_lambda gd p.1 target tol = .ok p.2 := by
      rcases hmemP p hpmem with hin | hok
      · simp at hin
      · exact hok
    have hconv : p.2.search_result.converged = false := by
      rw [hpfst] at hrunp
      rw [hrunp] at hnc
      simpa [Except.toOption] using hnc
    have hsweep : sweep_lambda gd lambda_values target tol false order = .ok
        { results := res, lambda_values := lambda_values,
          total_iterations :=
            (res.map (fun q => q.2.search_result.iterations)).sum,
          total_elapsed_seconds := 0,
          all_converged := res.all (fun q => q.2.search_result.converged) } := by
      simp only [sweep_lambda, hres]
    refine ⟨_, hsweep, ⟨p.2, ?_, hconv⟩, ?_⟩
    · unfold lookupResult
      rw [hfind]
      rfl
    · exact all_eq_false_of_mem hpmem hconv

/-- Witness for C7 on gdD with the unreachable target 1/3 at zero tolerance:
λ = 0 does not converge, fail-fast errors, best-effort records it. -/
theorem C7_sweep_failure_policies_witness :
    (∃ e, sweep_lambda gdD [0] (1/3) 0 true [0] = .error e) ∧
    (∃ res, sweep_lambda gdD [0] (1/3) 0 false [0] = .ok res ∧
      (∃ lr, lookupResult res.results 0 = some lr ∧
        lr.search_result.converged = false) ∧
      res.all_converged = false) :=
  C7_sweep_failure_policies gdD [0] [0] (1/3) 0 0 (by simp) (by decide)
    (by decide)

/-- Claim C8: loading a SweepResult from the path it was just saved to
reproduces every field of the saved value exactly. -/
theorem C8_sweep_save_load_roundtrip (r : SweepResult) (path : String)
    (fs : FileSystem) :
    load_sweep_result path (save_sweep_result r path fs) = .ok r := by
  unfold load_sweep_result save_sweep_result
  simp [decodeSweepResult_encode]

/-- Claim C9: solve_partition and find_optimal_mu never modify the GraphData
(population, area, rho, edge_lengths, edge list) they are given: in the
state-passing embedding the store each call hands back is exactly the input
store. -/
theorem C9_inputs_not_mutated (gd : GraphData)
    (lam mu target_fraction tolerance : ℚ) (max_iterations : ℕ)
    (mu_min : ℚ) (mu_max : Option ℚ) :
    (solve_partition_st gd lam mu).2 = gd ∧
      (find_optimal_mu_st gd lam target_fraction tolerance max_iterations
        mu_min mu_max).2 = gd := by
  constructor
  · rfl
  · simp only [find_optimal_mu_st, readGraphData]
    exact muLoop_st_preserves lam _ _ max_iterations max_iterations 0 mu_min
      _ [] none gd

/-- Claim C10: with max_iterations ≥ 1 (and valid parameters) find_optimal_mu
performs at least one solve, returns a SearchResult whose iterations count
equals the length of mu_history, and the `result is not None` assertion
cannot fail; with max_iterations = 0 the call fails on that assertion
instead of returning a SearchResult. -/
theorem C10_search_loop_safety (gd : GraphData)
    (lam target_fraction tolerance : ℚ) (max_iterations : ℕ) (mu_min : ℚ)
    (mu_max : Option ℚ) (hl0 : 0 ≤ lam) (hl1 : lam ≤ 1) (hm1 : 0 ≤ mu_min)
    (hm2 : 0 ≤ resolve_mu_max gd mu_max)
    (hpop : gd.attributes.population.sum ≠ 0) (hiter : 1 ≤ max_iterations) :
    (∃ r, find_optimal_mu gd lam target_fraction tolerance max_iterations
        mu_min mu_max = .ok r ∧
      r.iterations = r.mu_history.length ∧ 1 ≤ r.mu_history.length) ∧
    find_optimal_mu gd lam target_fraction tolerance 0 mu_min mu_max =
      .error "AssertionError: result is not None" := by
  constructor
  · obtain ⟨r, hr, hlen, hone, _⟩ :=
      muLoop_ok gd lam
        (target_fraction * ((gd.attributes.population.sum : ℤ) : ℚ))
        (tolerance * ((gd.attributes.population.sum : ℤ) : ℚ)) max_iterations
        hl0 hl1 hpop max_iterations 0 mu_min (resolve_mu_max gd mu_max) []
        none hm1 hm2 (by omega) rfl (fun _ => rfl) (fun r0 h => by cases h)
        (by omega)
    exact ⟨r, hr, hlen, hlen ▸ hone⟩
  · rfl

/-- Witness for C10 on gdA with max_iterations 1 and explicit μ bounds. -/
theorem C10_search_loop_safety_witness :
    (∃ r, find_optimal_mu gdA (1/2) (1/2) (1/100) 1 0 (some 1) = .ok r ∧
      r.iterations = r.mu_history.length ∧ 1 ≤ r.mu_history.length) ∧
    find_optimal_mu gdA (1/2) (1/2) (1/100) 0 0 (some 1) =
      .error "AssertionError: result is not None" :=
  C10_search_loop_safety gdA (1/2) (1/2) (1/100) 1 0 (some 1) (by decide)
    (by decide) (by decide) (by decide) (by decide) (by decide)

end ClaimTheorems

end HalfAmerica
